import Mathlib

/-!
Verification of the agent output-parsing layer:

* `StructuredChatOutputParser.parse` and
  `StructuredChatOutputParserWithRetries.parse`, embedded from
  src/libs/langchain/langchain/agents/structured_chat/output_parser.py;
* `ConvoOutputParser.parse`, embedded from
  src/libs/langchain/langchain/agents/conversational_chat/output_parser.py.

Text is modelled as `List Char`.  The Python standard-library pieces the
source calls (`re.search` on the one fixed pattern, `json.loads` with
`strict=False`, `str.strip`) are embedded as executable Lean functions
below; pieces of the langchain repository that are not under src/
(`langchain.schema`, `parse_json_markdown`, `OutputFixingParser`) are
modelled from the spec and marked as such in their doc comments.
-/

/-- JSON values as produced by Python `json.loads`.  Objects keep their
key/value pairs in parse order; duplicate keys are resolved by `jlookup`,
which returns the last binding, matching Python dict insertion order.
Numbers are modelled as integers only; fractional parts, exponents and
NaN/Infinity are not modelled (inputs using them are outside this
embedding), and `\uXXXX` escapes are mapped through `Char.ofNat` without
surrogate pairing. -/
inductive JValue where
  | null : JValue
  | bool (b : Bool) : JValue
  | num (n : Int) : JValue
  | str (s : List Char) : JValue
  | arr (xs : List JValue) : JValue
  | obj (fields : List (List Char × JValue)) : JValue

/-- JSON whitespace, as skipped by the Python json scanner. -/
def isJsonWs (c : Char) : Bool :=
  c == ' ' || c == '\t' || c == '\n' || c == '\r'

def skipWs (cs : List Char) : List Char := cs.dropWhile isJsonWs

def hexVal (c : Char) : Option Nat :=
  if '0' ≤ c ∧ c ≤ '9' then some (c.toNat - '0'.toNat)
  else if 'a' ≤ c ∧ c ≤ 'f' then some (c.toNat - 'a'.toNat + 10)
  else if 'A' ≤ c ∧ c ≤ 'F' then some (c.toNat - 'A'.toNat + 10)
  else none

/-- The JSON string escapes accepted by Python json (other than `\u`). -/
def escChar (e : Char) : Option Char :=
  if e = '"' then some '"'
  else if e = '\\' then some '\\'
  else if e = '/' then some '/'
  else if e = 'b' then some '\x08'
  else if e = 'f' then some '\x0c'
  else if e = 'n' then some '\n'
  else if e = 'r' then some '\r'
  else if e = 't' then some '\t'
  else none

/-- Scan the rest of a JSON string (the opening quote already consumed),
returning content and remaining input.  With `strict=False` raw control
characters inside strings are accepted, hence the catch-all arm. -/
def jstringRest : List Char → Option (List Char × List Char)
  | '"' :: rest => some ([], rest)
  | '\\' :: 'u' :: h1 :: h2 :: h3 :: h4 :: rest =>
    match hexVal h1, hexVal h2, hexVal h3, hexVal h4 with
    | some a, some b, some c, some d =>
      (jstringRest rest).map fun p =>
        (Char.ofNat (((a * 16 + b) * 16 + c) * 16 + d) :: p.1, p.2)
    | _, _, _, _ => none
  | '\\' :: e :: rest =>
    match escChar e with
    | some c => (jstringRest rest).map fun p => (c :: p.1, p.2)
    | none => none
  | c :: rest => (jstringRest rest).map fun p => (c :: p.1, p.2)
  | [] => none

def digitSpan : List Char → Nat → Nat × List Char
  | c :: rest, acc =>
    if c.isDigit then digitSpan rest (acc * 10 + (c.toNat - '0'.toNat))
    else (acc, c :: rest)
  | [], acc => (acc, [])

/-- Integer literals per the JSON number grammar: an optional minus sign
and either a single `0` or a nonzero digit followed by digits (a leading
zero terminates the literal, matching the NUMBER regex of the Python scanner). -/
def parseNum (cs : List Char) : Option (JValue × List Char) :=
  match cs with
  | '-' :: c :: rest =>
    if c = '0' then some (.num 0, rest)
    else if c.isDigit then
      let p := digitSpan rest (c.toNat - '0'.toNat)
      some (.num (-(p.1 : Int)), p.2)
    else none
  | c :: rest =>
    if c = '0' then some (.num 0, rest)
    else if c.isDigit then
      let p := digitSpan rest (c.toNat - '0'.toNat)
      some (.num (p.1 : Int), p.2)
    else none
  | [] => none

def jlookup (fields : List (List Char × JValue)) (k : List Char) : Option JValue :=
  match fields with
  | [] => none
  | (k', v) :: rest =>
    match jlookup rest k with
    | some r => some r
    | none => if k' = k then some v else none

mutual

/-- Model of the Python `json.loads` scanner (with `strict=False`), on a
fuel argument: a JSON value together with the remaining input. -/
def parseVal : Nat → List Char → Option (JValue × List Char)
  | 0, _ => none
  | fuel + 1, cs =>
    match skipWs cs with
    | [] => none
    | c :: rest =>
      if c = '\x7b' then
        match skipWs rest with
        | '\x7d' :: r => some (.obj [], r)
        | r => parseMembers fuel r []
      else if c = '[' then
        match skipWs rest with
        | ']' :: r => some (.arr [], r)
        | r => parseElems fuel r []
      else if c = '"' then
        (jstringRest rest).map fun p => (.str p.1, p.2)
      else if c = 't' then
        match rest with
        | 'r' :: 'u' :: 'e' :: r => some (.bool true, r)
        | _ => none
      else if c = 'f' then
        match rest with
        | 'a' :: 'l' :: 's' :: 'e' :: r => some (.bool false, r)
        | _ => none
      else if c = 'n' then
        match rest with
        | 'u' :: 'l' :: 'l' :: r => some (.null, r)
        | _ => none
      else parseNum (c :: rest)

/-- Members of a JSON object, positioned at a key (whitespace skipped). -/
def parseMembers : Nat → List Char → List (List Char × JValue) →
    Option (JValue × List Char)
  | 0, _, _ => none
  | fuel + 1, cs, acc =>
    match cs with
    | '"' :: rest =>
      match jstringRest rest with
      | none => none
      | some (key, r1) =>
        match skipWs r1 with
        | ':' :: r2 =>
          match parseVal fuel r2 with
          | none => none
          | some (v, r3) =>
            match skipWs r3 with
            | ',' :: r4 => parseMembers fuel (skipWs r4) (acc ++ [(key, v)])
            | '\x7d' :: r4 => some (.obj (acc ++ [(key, v)]), r4)
            | _ => none
        | _ => none
    | _ => none

/-- Elements of a JSON array, positioned at an element. -/
def parseElems : Nat → List Char → List JValue → Option (JValue × List Char)
  | 0, _, _ => none
  | fuel + 1, cs, acc =>
    match parseVal fuel cs with
    | none => none
    | some (v, r) =>
      match skipWs r with
      | ',' :: r2 => parseElems fuel r2 (acc ++ [v])
      | ']' :: r2 => some (.arr (acc ++ [v]), r2)
      | _ => none

end

/-- Model of `json.loads(s, strict=False)`: parse one value and require
only trailing whitespace after it.  The fuel bound suffices because every
recursive step first consumes at least one input character. -/
def jsonParse (cs : List Char) : Option JValue :=
  match parseVal (2 * cs.length + 2) cs with
  | some (v, rest) => if skipWs rest = [] then some v else none
  | none => none

/-- Python `str.strip` whitespace (the ASCII part). -/
def isPyWs (c : Char) : Bool :=
  c == ' ' || c == '\t' || c == '\n' || c == '\r' || c == '\x0b' || c == '\x0c'

/-- Python `str.strip`. -/
def pstrip (cs : List Char) : List Char :=
  ((cs.dropWhile isPyWs).reverse.dropWhile isPyWs).reverse

/-- A closing fence starts here: two consecutive backticks. -/
def closesFence (c : Char) (rest : List Char) : Bool :=
  c == '\x60' && rest.head? == some '\x60'

/-- Lazy capture of the regex group: the shortest prefix followed by a
two-backtick closing fence (the optional third closing backtick does not
affect the captured group). -/
def fenceBody : List Char → Option (List Char)
  | [] => none
  | c :: rest =>
    if closesFence c rest then some []
    else (fenceBody rest).map (c :: ·)

/-- An opening fence starts here: three consecutive backticks. -/
def opensFence (c : Char) (rest : List Char) : Bool :=
  c == '\x60' && rest.head? == some '\x60' && rest.tail.head? == some '\x60'

/-- Model of Python `re.search` with pattern triple-backtick,
lazy capture group, then two backticks and an optional third
(the pattern literal in src is r"```(.*?)```?", with re.DOTALL), returning
the captured group of the leftmost match.  `re.search` tries successive
start positions left to right; a start whose opening fence has no later
closing fence is retried one character further right. -/
def findFence : List Char → Option (List Char)
  | [] => none
  | c :: rest =>
    if opensFence c rest then
      match fenceBody rest.tail.tail with
      | some b => some b
      | none => findFence rest
    else findFence rest

/-- The input contains three consecutive backticks somewhere. -/
def hasTripleBT : List Char → Bool
  | [] => false
  | c :: rest => opensFence c rest || hasTripleBT rest

/-- Modelled from the spec: `OutputParserException` (langchain.schema, not
under src/) — the RecoverableParseError of the spec, carrying the text passed
at the raise site.  Every raise site under src/ passes the message
"Could not parse LLM output: " followed by the original input. -/
structure RecoverableParseError where
  text : List Char
deriving DecidableEq

/-- The message built at every raise site under src/. -/
def mkErrMsg (text : List Char) : List Char :=
  ("Could not parse LLM output: ".toList) ++ text

/-- Modelled from the spec: `AgentAction` / `AgentFinish`
(langchain.schema, not under src/) — the ParsedDecision tagged union of the spec.  `toolName` keeps the raw parsed value exactly as the call sites
pass it; the AgentFinish return-values mapping with its single key "output"
is modelled by the `output` field directly. -/
inductive ParsedDecision where
  | action (toolName : JValue) (toolInput : JValue) (rawLog : List Char) : ParsedDecision
  | finish (output : JValue) (rawLog : List Char) : ParsedDecision

def ParsedDecision.rawLog : ParsedDecision → List Char
  | .action _ _ l => l
  | .finish _ l => l

def actionKey : List Char := ("action".toList)

def actionInputKey : List Char := ("action_input".toList)

def finalAnswerStr : List Char := ("Final Answer".toList)

/-- Python subscripting `v[k]` for a parsed JSON value: a value for a
present key of an object, and a raised exception (`none`) for a missing
key or a non-object (KeyError / TypeError in Python). -/
def getKey (v : JValue) (k : List Char) : Option JValue :=
  match v with
  | .obj fields => jlookup fields k
  | _ => none

/-- The comparison in the source of the action value with the string
"Final Answer" (Python `==`: false for any non-string value). -/
def isFinalAnswer : JValue → Bool
  | .str s => s == finalAnswerStr
  | _ => false

/-- The list-narrowing step of `StructuredChatOutputParser.parse`:
`response = response[0]` when the response is a list (an exception, hence
`none`, on an empty list), identity otherwise. -/
def selectFirst : JValue → Option JValue
  | .arr [] => none
  | .arr (x :: _) => some x
  | v => some v

/-- The final dispatch of `StructuredChatOutputParser.parse` on the
narrowed response: AgentFinish on action "Final Answer" (subscripting
`action_input` directly, so its absence raises), otherwise AgentAction
with `response.get("action_input", an empty dict)`. -/
def decideRecord (resp : JValue) (text : List Char) :
    Except RecoverableParseError ParsedDecision :=
  match getKey resp actionKey with
  | none => .error ⟨mkErrMsg text⟩
  | some a =>
    if isFinalAnswer a then
      match getKey resp actionInputKey with
      | none => .error ⟨mkErrMsg text⟩
      | some ai => .ok (.finish ai text)
    else .ok (.action a ((getKey resp actionInputKey).getD (.obj [])) text)

/-- The fenced-block branch of `StructuredChatOutputParser.parse`:
json-load the stripped captured group, narrow a list to its first
element, dispatch; any failure raises the uniform error. -/
def handleBlock (body text : List Char) : Except RecoverableParseError ParsedDecision :=
  match jsonParse (pstrip body) with
  | none => .error ⟨mkErrMsg text⟩
  | some resp =>
    match selectFirst resp with
    | none => .error ⟨mkErrMsg text⟩
    | some r => decideRecord r text

namespace StructuredChatOutputParser

/-- `StructuredChatOutputParser.parse` from
src/libs/langchain/langchain/agents/structured_chat/output_parser.py:
search for a fenced block; with none, AgentFinish over the whole text;
otherwise json-load the captured group and dispatch. -/
def parse (text : List Char) : Except RecoverableParseError ParsedDecision :=
  match findFence text with
  | none => .ok (.finish (.str text) text)
  | some body => handleBlock body text

end StructuredChatOutputParser

/-- The fixed part of the warning the source logs when the response is a
list (`logger.warning` of "Got multiple action responses: %s"). -/
def multipleWarn : List Char := ("Got multiple action responses".toList)

/-- `StructuredChatOutputParser.parse` with the logger state made
explicit: the only effect in the parse path of the source is the
`logger.warning` call in the list branch, modelled as appending to an
accumulated warning list that is threaded through the call. -/
def parseLogged (warnings : List (List Char)) (text : List Char) :
    Except RecoverableParseError ParsedDecision × List (List Char) :=
  match findFence text with
  | none => (.ok (.finish (.str text) text), warnings)
  | some body =>
    match jsonParse (pstrip body) with
    | none => (.error ⟨mkErrMsg text⟩, warnings)
    | some (.arr xs) =>
      let w := warnings ++ [multipleWarn]
      match xs with
      | [] => (.error ⟨mkErrMsg text⟩, w)
      | r :: _ => (decideRecord r text, w)
    | some resp => (decideRecord resp text, warnings)

namespace StructuredChatOutputParserWithRetries

/-- `StructuredChatOutputParserWithRetries.parse` from the same source
file.  `fixer` models the optional `OutputFixingParser` field (its class
is not under src/ and is modelled from the spec as an abstract injected
corrective procedure yielding a decision or an error); the base-parser
field is kept at its declared default, `StructuredChatOutputParser`.  Any
error of the attempted branch is caught and re-raised with the uniform
message over the original text. -/
def parse (fixer : Option (List Char → Except RecoverableParseError ParsedDecision))
    (text : List Char) : Except RecoverableParseError ParsedDecision :=
  match (match fixer with
         | some f => f text
         | none => StructuredChatOutputParser.parse text) with
  | .ok d => .ok d
  | .error _ => .error ⟨mkErrMsg text⟩

end StructuredChatOutputParserWithRetries

/-- Drop a leading json tag from a captured fence body. -/
def dropJsonTag : List Char → List Char
  | 'j' :: 's' :: 'o' :: 'n' :: rest => rest
  | cs => cs

/-- Modelled from the spec: `parse_json_markdown`
(langchain.output_parsers.json, not under src/): search the text for a
fenced block (triple-backtick markers, optionally tagged json — the tag is
not part of the contents); when none is found the whole text is the
candidate; the candidate is stripped and parsed as a lenient
loosely-structured value. -/
def parseJsonMarkdown (text : List Char) : Option JValue :=
  match findFence text with
  | some body => jsonParse (pstrip (dropJsonTag body))
  | none => jsonParse (pstrip text)

namespace ConvoOutputParser

/-- `ConvoOutputParser.parse` from
src/libs/langchain/langchain/agents/conversational_chat/output_parser.py:
parse the text as markdown-embedded JSON, require both the `action` and
the `action_input` keys (their absence raises), dispatch on the action;
every failure is re-raised with the uniform message over the original
text. -/
def parse (text : List Char) : Except RecoverableParseError ParsedDecision :=
  match parseJsonMarkdown text with
  | some (.obj fields) =>
    match jlookup fields actionKey, jlookup fields actionInputKey with
    | some a, some ai =>
      .ok (if isFinalAnswer a then .finish ai text else .action a ai text)
    | _, _ => .error ⟨mkErrMsg text⟩
  | some _ => .error ⟨mkErrMsg text⟩
  | none => .error ⟨mkErrMsg text⟩

end ConvoOutputParser

/-! Helper lemmas. -/

theorem jsonParse_j (rest : List Char) : jsonParse ('j' :: rest) = none := rfl

theorem decideRecord_err (r : JValue) (t : List Char) (e : RecoverableParseError)
    (h : decideRecord r t = .error e) : e = ⟨mkErrMsg t⟩ := by
  unfold decideRecord at h
  repeat' split at h
  all_goals first
    | exact (Except.error.inj h).symm
    | exact Except.noConfusion h

theorem decideRecord_rawLog (r : JValue) (t : List Char) (d : ParsedDecision)
    (h : decideRecord r t = .ok d) : d.rawLog = t := by
  unfold decideRecord at h
  repeat' split at h
  all_goals first
    | exact Except.noConfusion h
    | (cases Except.ok.inj h; rfl)

theorem handleBlock_err (b t : List Char) (e : RecoverableParseError)
    (h : handleBlock b t = .error e) : e = ⟨mkErrMsg t⟩ := by
  unfold handleBlock at h
  repeat' split at h
  all_goals first
    | exact (Except.error.inj h).symm
    | exact decideRecord_err _ _ _ h

theorem parse_err_shape (t : List Char) (e : RecoverableParseError)
    (h : StructuredChatOutputParser.parse t = .error e) : e = ⟨mkErrMsg t⟩ := by
  unfold StructuredChatOutputParser.parse at h
  split at h
  · exact Except.noConfusion h
  · exact handleBlock_err _ _ _ h

theorem findFence_eq_none (cs : List Char) (h : hasTripleBT cs = false) :
    findFence cs = none := by
  induction cs with
  | nil => rfl
  | cons c rest ih =>
    rw [hasTripleBT, Bool.or_eq_false_iff] at h
    rw [findFence, if_neg (by simp [h.1])]
    exact ih h.2

theorem fenceBody_append (body rest : List Char)
    (h : body.all (fun c => c != '\x60') = true) :
    fenceBody (body ++ '\x60' :: '\x60' :: rest) = some body := by
  induction body with
  | nil => rfl
  | cons c bs ih =>
    rw [List.all_cons, Bool.and_eq_true] at h
    have hc : closesFence c (bs ++ '\x60' :: '\x60' :: rest) = false := by
      have : (c == '\x60') = false := by
        rcases h with ⟨h1, _⟩
        simpa [bne] using h1
      simp [closesFence, this]
    rw [List.cons_append, fenceBody, if_neg (by simp [hc]), ih h.2]
    rfl

theorem parseLogged_fst (w : List (List Char)) (t : List Char) :
    (parseLogged w t).1 = StructuredChatOutputParser.parse t := by
  unfold parseLogged StructuredChatOutputParser.parse handleBlock
  cases hf : findFence t with
  | none => rfl
  | some body =>
    dsimp only
    cases hj : jsonParse (pstrip body) with
    | none => rfl
    | some resp =>
      dsimp only
      cases resp with
      | arr xs => cases xs <;> rfl
      | null => rfl
      | bool b => rfl
      | num n => rfl
      | str s => rfl
      | obj fields => rfl

/-! Claim theorems. -/

/-- C5: for every input string containing no fenced block (no
triple-backtick region at all), lenient-mode
`StructuredChatOutputParser.parse` returns Finish whose output is the
entire input text, and does not raise. -/
theorem c5_no_fence_finish : ∀ text : List Char, hasTripleBT text = false →
    StructuredChatOutputParser.parse text = .ok (.finish (.str text) text) := by
  intro text h
  unfold StructuredChatOutputParser.parse
  rw [findFence_eq_none text h]

theorem c5_no_fence_finish_witness :
    StructuredChatOutputParser.parse (("no code block here, just prose".toList)) =
      .ok (.finish (.str (("no code block here, just prose".toList)))
        (("no code block here, just prose".toList))) :=
  c5_no_fence_finish (("no code block here, just prose".toList)) (by decide)

/-- C6: when the fenced block parses to a JSON sequence with at least one
element, `StructuredChatOutputParser.parse` returns the decision derived
from the first record alone — the remaining candidates do not influence
the result (they are quantified away), and the call succeeds whenever the
first record yields a decision. -/
theorem c6_first_of_list : ∀ (text body : List Char) (r : JValue) (rs : List JValue),
    findFence text = some body →
    jsonParse (pstrip body) = some (.arr (r :: rs)) →
    StructuredChatOutputParser.parse text = decideRecord r text := by
  intro text body r rs hf hj
  unfold StructuredChatOutputParser.parse handleBlock
  rw [hf]
  dsimp only
  rw [hj]
  rfl

theorem c6_first_of_list_witness :
    StructuredChatOutputParser.parse
        (("```[\x7b\"action\": \"Search\", \"action_input\": \"a\"\x7d, \x7b\"action\": \"Other\", \"action_input\": \"b\"\x7d]```".toList)) =
      decideRecord
        (.obj [((("action".toList)), .str (("Search".toList))),
               ((("action_input".toList)), .str (("a".toList)))])
        (("```[\x7b\"action\": \"Search\", \"action_input\": \"a\"\x7d, \x7b\"action\": \"Other\", \"action_input\": \"b\"\x7d]```".toList)) ∧
    decideRecord
        (.obj [((("action".toList)), .str (("Search".toList))),
               ((("action_input".toList)), .str (("a".toList)))])
        (("```[\x7b\"action\": \"Search\", \"action_input\": \"a\"\x7d, \x7b\"action\": \"Other\", \"action_input\": \"b\"\x7d]```".toList)) =
      .ok (.action (.str (("Search".toList))) (.str (("a".toList)))
        (("```[\x7b\"action\": \"Search\", \"action_input\": \"a\"\x7d, \x7b\"action\": \"Other\", \"action_input\": \"b\"\x7d]```".toList))) :=
  ⟨c6_first_of_list _ _ _
      [.obj [((("action".toList)), .str (("Other".toList))),
             ((("action_input".toList)), .str (("b".toList)))]]
      rfl rfl,
   rfl⟩

/-- C7: whenever parse returns successfully — in the lenient
(StructuredChatOutputParser) or strict (ConvoOutputParser) variant — the
rawLog of the returned decision is the original input verbatim. -/
theorem c7_rawLog_verbatim : ∀ (text : List Char) (d : ParsedDecision),
    (StructuredChatOutputParser.parse text = .ok d → d.rawLog = text) ∧
    (ConvoOutputParser.parse text = .ok d → d.rawLog = text) := by
  intro text d
  constructor
  · intro h
    unfold StructuredChatOutputParser.parse at h
    split at h
    · cases Except.ok.inj h
      rfl
    · unfold handleBlock at h
      repeat' split at h
      all_goals first
        | exact Except.noConfusion h
        | exact decideRecord_rawLog _ _ _ h
  · intro h
    unfold ConvoOutputParser.parse at h
    repeat' split at h
    all_goals first
      | exact Except.noConfusion h
      | (cases Except.ok.inj h; rfl)

theorem c7_rawLog_verbatim_witness :
    (ParsedDecision.finish (.str (("just text".toList))) (("just text".toList))).rawLog =
      (("just text".toList)) ∧
    (ParsedDecision.action (.str (("A".toList))) (.str (("B".toList)))
        (("\x7b\"action\": \"A\", \"action_input\": \"B\"\x7d".toList))).rawLog =
      (("\x7b\"action\": \"A\", \"action_input\": \"B\"\x7d".toList)) :=
  ⟨(c7_rawLog_verbatim (("just text".toList))
      (.finish (.str (("just text".toList))) (("just text".toList)))).1 rfl,
   (c7_rawLog_verbatim (("\x7b\"action\": \"A\", \"action_input\": \"B\"\x7d".toList))
      (.action (.str (("A".toList))) (.str (("B".toList)))
        (("\x7b\"action\": \"A\", \"action_input\": \"B\"\x7d".toList)))).2 rfl⟩

/-- C8: parse is deterministic and free of hidden mutable state.  The only
effect in the parse path of the source is the warning logged in the list
branch; with that logger state made explicit (`parseLogged` threads the
accumulated warnings), the decision component is independent of the
accumulated state, so two invocations — whatever was logged between them —
yield structurally equal results, and both coincide with the pure
`StructuredChatOutputParser.parse`. -/
theorem c8_deterministic : ∀ (text : List Char) (w₁ w₂ : List (List Char)),
    (parseLogged w₁ text).1 = (parseLogged w₂ text).1 ∧
    (parseLogged w₁ text).1 = StructuredChatOutputParser.parse text :=
  fun text w₁ w₂ =>
    ⟨(parseLogged_fst w₁ text).trans (parseLogged_fst w₂ text).symm,
     parseLogged_fst w₁ text⟩

/-- C10: the final backtick of the closing fence is optional: an input of
the form open fence (three backticks), body free of backticks, then
exactly two backticks, is recognized as a fenced block whose captured
group is the body, and parse proceeds with the block-handling stage
(stripping and json-loading the body) rather than the no-block Finish
fallback. -/
theorem c10_two_backtick_close : ∀ body : List Char,
    body.all (fun c => c != '\x60') = true →
    findFence ('\x60' :: '\x60' :: '\x60' :: (body ++ ['\x60', '\x60'])) = some body ∧
    StructuredChatOutputParser.parse
        ('\x60' :: '\x60' :: '\x60' :: (body ++ ['\x60', '\x60'])) =
      handleBlock body ('\x60' :: '\x60' :: '\x60' :: (body ++ ['\x60', '\x60'])) := by
  intro body h
  have hb : fenceBody (body ++ '\x60' :: '\x60' :: []) = some body :=
    fenceBody_append body [] h
  have hf : findFence ('\x60' :: '\x60' :: '\x60' :: (body ++ ['\x60', '\x60'])) =
      some body := by
    show (match fenceBody (body ++ ['\x60', '\x60']) with
          | some b => some b
          | none => findFence ('\x60' :: '\x60' :: (body ++ ['\x60', '\x60']))) = some body
    rw [hb]
  refine ⟨hf, ?_⟩
  unfold StructuredChatOutputParser.parse
  rw [hf]

theorem c10_two_backtick_close_witness :
    StructuredChatOutputParser.parse
        (("```\x7b\"action\": \"Final Answer\", \"action_input\": \"ok\"\x7d``".toList)) =
      .ok (.finish (.str (("ok".toList)))
        (("```\x7b\"action\": \"Final Answer\", \"action_input\": \"ok\"\x7d``".toList))) :=
  ((c10_two_backtick_close
      (("\x7b\"action\": \"Final Answer\", \"action_input\": \"ok\"\x7d".toList))
      (by decide)).2).trans rfl

/-- Helper: a successful fence search and json load reduce parse to the
record dispatch on the narrowed response. -/
theorem parse_eq_decide (text body : List Char) (resp r : JValue)
    (hf : findFence text = some body) (hj : jsonParse (pstrip body) = some resp)
    (hr : selectFirst resp = some r) :
    StructuredChatOutputParser.parse text = decideRecord r text := by
  unfold StructuredChatOutputParser.parse handleBlock
  rw [hf]
  dsimp only
  rw [hj]
  dsimp only
  rw [hr]

/-- Helper: a failed json load of the captured body makes parse raise the
uniform error. -/
theorem parse_err_of_bad_json (text body : List Char)
    (hf : findFence text = some body) (hj : jsonParse (pstrip body) = none) :
    StructuredChatOutputParser.parse text = .error ⟨mkErrMsg text⟩ := by
  unfold StructuredChatOutputParser.parse handleBlock
  rw [hf]
  dsimp only
  rw [hj]

/-- Helper: dispatch on an object response whose action value is the
string s. -/
theorem decideRecord_of_action (fields : List (List Char × JValue))
    (text s : List Char) (ha : jlookup fields actionKey = some (.str s)) :
    decideRecord (.obj fields) text =
      (if s == finalAnswerStr then
        (match jlookup fields actionInputKey with
         | none => Except.error ⟨mkErrMsg text⟩
         | some ai => Except.ok (.finish ai text))
      else
        Except.ok (.action (.str s)
          ((jlookup fields actionInputKey).getD (.obj [])) text)) := by
  unfold decideRecord
  dsimp only [getKey]
  rw [ha]
  rfl

/-- C9: the comparison with "Final Answer" is exact, case-sensitive string
equality: when the parsed record carries an `action` string differing from
"Final Answer" in any character (casing or whitespace included), both the
lenient (StructuredChatOutputParser) and the strict (ConvoOutputParser)
parse return Action with that exact string as toolName — never Finish. -/
theorem c9_final_answer_exact :
    (∀ (text body : List Char) (fields : List (List Char × JValue)) (s : List Char),
      findFence text = some body →
      jsonParse (pstrip body) = some (.obj fields) →
      jlookup fields actionKey = some (.str s) →
      s ≠ finalAnswerStr →
      StructuredChatOutputParser.parse text =
        .ok (.action (.str s) ((jlookup fields actionInputKey).getD (.obj [])) text)) ∧
    (∀ (text : List Char) (fields : List (List Char × JValue)) (s : List Char) (ai : JValue),
      parseJsonMarkdown text = some (.obj fields) →
      jlookup fields actionKey = some (.str s) →
      jlookup fields actionInputKey = some ai →
      s ≠ finalAnswerStr →
      ConvoOutputParser.parse text = .ok (.action (.str s) ai text)) := by
  constructor
  · intro text body fields s hf hj ha hs
    rw [parse_eq_decide text body (.obj fields) (.obj fields) hf hj rfl]
    rw [decideRecord_of_action fields text s ha]
    rw [if_neg (by simp [hs])]
  · intro text fields s ai hpm ha hai hs
    unfold ConvoOutputParser.parse
    rw [hpm]
    dsimp only
    rw [ha, hai]
    dsimp only
    rw [if_neg (by simp [isFinalAnswer, hs])]

theorem c9_final_answer_exact_witness :
    StructuredChatOutputParser.parse
        (("```\x7b\"action\": \"final answer\", \"action_input\": \"x\"\x7d```".toList)) =
      .ok (.action (.str (("final answer".toList))) (.str (("x".toList)))
        (("```\x7b\"action\": \"final answer\", \"action_input\": \"x\"\x7d```".toList))) ∧
    ConvoOutputParser.parse
        (("```json\n\x7b\"action\": \"final answer\", \"action_input\": \"x\"\x7d\n```".toList)) =
      .ok (.action (.str (("final answer".toList))) (.str (("x".toList)))
        (("```json\n\x7b\"action\": \"final answer\", \"action_input\": \"x\"\x7d\n```".toList))) :=
  ⟨c9_final_answer_exact.1
      (("```\x7b\"action\": \"final answer\", \"action_input\": \"x\"\x7d```".toList))
      (("\x7b\"action\": \"final answer\", \"action_input\": \"x\"\x7d".toList))
      [((("action".toList)), .str (("final answer".toList))),
       ((("action_input".toList)), .str (("x".toList)))]
      (("final answer".toList)) rfl rfl rfl (by decide),
   c9_final_answer_exact.2
      (("```json\n\x7b\"action\": \"final answer\", \"action_input\": \"x\"\x7d\n```".toList))
      [((("action".toList)), .str (("final answer".toList))),
       ((("action_input".toList)), .str (("x".toList)))]
      (("final answer".toList)) (.str (("x".toList))) rfl rfl rfl (by decide)⟩

/-- C1 counterexample: on the input whose fenced block is tagged json and
whose body is the record with action "Search" and action input "term",
lenient-mode parse does not return the corresponding Action — it raises
the uniform error, because the captured group of the pattern includes the
tag, so the json load gets the text starting with the tag and fails. -/
theorem c1_counterexample :
    StructuredChatOutputParser.parse
        (("```json\n\x7b\"action\": \"Search\", \"action_input\": \"term\"\x7d\n```".toList)) =
      .error ⟨mkErrMsg
        (("```json\n\x7b\"action\": \"Search\", \"action_input\": \"term\"\x7d\n```".toList))⟩ ∧
    StructuredChatOutputParser.parse
        (("```json\n\x7b\"action\": \"Search\", \"action_input\": \"term\"\x7d\n```".toList)) ≠
      .ok (.action (.str (("Search".toList))) (.str (("term".toList)))
        (("```json\n\x7b\"action\": \"Search\", \"action_input\": \"term\"\x7d\n```".toList))) := by
  have h1 : StructuredChatOutputParser.parse
      (("```json\n\x7b\"action\": \"Search\", \"action_input\": \"term\"\x7d\n```".toList)) =
      .error ⟨mkErrMsg
        (("```json\n\x7b\"action\": \"Search\", \"action_input\": \"term\"\x7d\n```".toList))⟩ := rfl
  refine ⟨h1, ?_⟩
  rw [h1]
  intro h
  exact Except.noConfusion h

/-- C1 amended: a fenced block tagged json has the tag included in the
captured group, so its stripped contents start with the tag and the json
load fails — parse raises the uniform RecoverableParseError instead of
returning the decision; an untagged fenced block whose stripped contents
are a record with an action string (and an action input) does parse to the
corresponding decision (Finish on "Final Answer", Action otherwise). -/
theorem c1_json_tag_amended :
    (∀ (text body rest : List Char), findFence text = some body →
      pstrip body = 'j' :: 's' :: 'o' :: 'n' :: rest →
      StructuredChatOutputParser.parse text = .error ⟨mkErrMsg text⟩) ∧
    (∀ (text body : List Char) (fields : List (List Char × JValue))
        (s : List Char) (ai : JValue),
      findFence text = some body →
      jsonParse (pstrip body) = some (.obj fields) →
      jlookup fields actionKey = some (.str s) →
      jlookup fields actionInputKey = some ai →
      StructuredChatOutputParser.parse text =
        (if s == finalAnswerStr then Except.ok (.finish ai text)
         else Except.ok (.action (.str s) ai text))) := by
  constructor
  · intro text body rest hf hstrip
    refine parse_err_of_bad_json text body hf ?_
    rw [hstrip]
    exact jsonParse_j _
  · intro text body fields s ai hf hj ha hai
    rw [parse_eq_decide text body (.obj fields) (.obj fields) hf hj rfl]
    rw [decideRecord_of_action fields text s ha]
    rw [hai]
    cases hb : s == finalAnswerStr with
    | false =>
      rw [if_neg (by simp [hb]), if_neg (by simp [hb])]
      rfl
    | true => rw [if_pos (by simp [hb]), if_pos (by simp [hb])]

theorem c1_json_tag_amended_witness :
    StructuredChatOutputParser.parse
        (("```json\n\x7b\"action\": \"Other\", \"action_input\": \"q\"\x7d\n```".toList)) =
      .error ⟨mkErrMsg
        (("```json\n\x7b\"action\": \"Other\", \"action_input\": \"q\"\x7d\n```".toList))⟩ ∧
    StructuredChatOutputParser.parse
        (("```\n\x7b\"action\": \"Other\", \"action_input\": \"q\"\x7d\n```".toList)) =
      .ok (.action (.str (("Other".toList))) (.str (("q".toList)))
        (("```\n\x7b\"action\": \"Other\", \"action_input\": \"q\"\x7d\n```".toList))) :=
  ⟨c1_json_tag_amended.1
      (("```json\n\x7b\"action\": \"Other\", \"action_input\": \"q\"\x7d\n```".toList))
      (("json\n\x7b\"action\": \"Other\", \"action_input\": \"q\"\x7d\n".toList))
      (("\n\x7b\"action\": \"Other\", \"action_input\": \"q\"\x7d".toList)) rfl rfl,
   c1_json_tag_amended.2
      (("```\n\x7b\"action\": \"Other\", \"action_input\": \"q\"\x7d\n```".toList))
      (("\n\x7b\"action\": \"Other\", \"action_input\": \"q\"\x7d\n".toList))
      [((("action".toList)), .str (("Other".toList))),
       ((("action_input".toList)), .str (("q".toList)))]
      (("Other".toList)) (.str (("q".toList))) rfl rfl rfl rfl⟩

/-- C4 counterexample: a fenced block whose record has action
"Final Answer" but no action input makes lenient-mode parse raise the
uniform error rather than succeed — the AgentFinish branch subscripts
`action_input` directly, with no default. -/
theorem c4_counterexample :
    StructuredChatOutputParser.parse
        (("```\x7b\"action\": \"Final Answer\"\x7d```".toList)) =
      .error ⟨mkErrMsg (("```\x7b\"action\": \"Final Answer\"\x7d```".toList))⟩ ∧
    StructuredChatOutputParser.parse
        (("```\x7b\"action\": \"Final Answer\"\x7d```".toList)) ≠
      .ok (.finish (.obj [])
        (("```\x7b\"action\": \"Final Answer\"\x7d```".toList))) := by
  have h1 : StructuredChatOutputParser.parse
      (("```\x7b\"action\": \"Final Answer\"\x7d```".toList)) =
      .error ⟨mkErrMsg (("```\x7b\"action\": \"Final Answer\"\x7d```".toList))⟩ := rfl
  refine ⟨h1, ?_⟩
  rw [h1]
  intro h
  exact Except.noConfusion h

/-- C4 amended: when the fenced block parses to a record with an action
string but no action_input key, lenient-mode parse succeeds with the
toolInput defaulting to an empty structure only when the action differs
from "Final Answer"; for action "Final Answer" the missing action_input
is an error (the uniform RecoverableParseError), not a default. -/
theorem c4_missing_action_input_amended :
    ∀ (text body : List Char) (fields : List (List Char × JValue)) (s : List Char),
      findFence text = some body →
      jsonParse (pstrip body) = some (.obj fields) →
      jlookup fields actionKey = some (.str s) →
      jlookup fields actionInputKey = none →
      StructuredChatOutputParser.parse text =
        (if s == finalAnswerStr then Except.error ⟨mkErrMsg text⟩
         else Except.ok (.action (.str s) (.obj []) text)) := by
  intro text body fields s hf hj ha hai
  rw [parse_eq_decide text body (.obj fields) (.obj fields) hf hj rfl]
  rw [decideRecord_of_action fields text s ha]
  rw [hai]
  cases hb : s == finalAnswerStr with
  | false =>
    rw [if_neg (by simp [hb]), if_neg (by simp [hb])]
    rfl
  | true => rw [if_pos (by simp [hb]), if_pos (by simp [hb])]

theorem c4_missing_action_input_amended_witness :
    StructuredChatOutputParser.parse (("```\x7b\"action\": \"Search\"\x7d```".toList)) =
      .ok (.action (.str (("Search".toList))) (.obj [])
        (("```\x7b\"action\": \"Search\"\x7d```".toList))) ∧
    StructuredChatOutputParser.parse
        (("```\x7b\"action\": \"Final Answer\"\x7d``` ".toList)) =
      .error ⟨mkErrMsg (("```\x7b\"action\": \"Final Answer\"\x7d``` ".toList))⟩ :=
  ⟨c4_missing_action_input_amended
      (("```\x7b\"action\": \"Search\"\x7d```".toList))
      (("\x7b\"action\": \"Search\"\x7d".toList))
      [((("action".toList)), .str (("Search".toList)))]
      (("Search".toList)) rfl rfl rfl rfl,
   c4_missing_action_input_amended
      (("```\x7b\"action\": \"Final Answer\"\x7d``` ".toList))
      (("\x7b\"action\": \"Final Answer\"\x7d".toList))
      [((("action".toList)), .str (("Final Answer".toList)))]
      (("Final Answer".toList)) rfl rfl rfl rfl⟩

/-- A corrective procedure that always fails with an error value of its
own, exercising the corrector-failure path of the retry wrapper. -/
def fixerBoom : List Char → Except RecoverableParseError ParsedDecision :=
  fun _ => .error ⟨(("boom".toList))⟩

/-- C2 counterexample: with the corrector `fixerBoom` configured, whose
error carries "boom", the wrapper does not surface that error — it raises
the uniform error over the original input text, a different error
value. -/
theorem c2_counterexample :
    fixerBoom (("x".toList)) = .error ⟨(("boom".toList))⟩ ∧
    StructuredChatOutputParserWithRetries.parse (some fixerBoom) (("x".toList)) =
      .error ⟨mkErrMsg (("x".toList))⟩ ∧
    (⟨mkErrMsg (("x".toList))⟩ : RecoverableParseError) ≠ ⟨(("boom".toList))⟩ :=
  ⟨rfl, rfl, by decide⟩

/-- C2 amended: with no corrector configured the wrapper raises an error
equal (as a value) to the error of the base parser — every base-parser
error carries the message "Could not parse LLM output: " plus the input,
which is exactly what the wrapper rebuilds, so that failure propagates
unchanged; with a corrector configured that fails, the wrapper discards
the resulting corrector error and instead raises the uniform
RecoverableParseError over the original input text. -/
theorem c2_retry_propagation_amended :
    (∀ (text : List Char) (e : RecoverableParseError),
      StructuredChatOutputParser.parse text = .error e →
      StructuredChatOutputParserWithRetries.parse none text = .error e) ∧
    (∀ (f : List Char → Except RecoverableParseError ParsedDecision)
        (text : List Char) (e : RecoverableParseError),
      f text = .error e →
      StructuredChatOutputParserWithRetries.parse (some f) text =
        .error ⟨mkErrMsg text⟩) := by
  constructor
  · intro text e h
    have he := parse_err_shape text e h
    subst he
    unfold StructuredChatOutputParserWithRetries.parse
    dsimp only
    rw [h]
  · intro f text e h
    unfold StructuredChatOutputParserWithRetries.parse
    dsimp only
    rw [h]

theorem c2_retry_propagation_amended_witness :
    StructuredChatOutputParserWithRetries.parse none (("```x```".toList)) =
      .error ⟨mkErrMsg (("```x```".toList))⟩ ∧
    StructuredChatOutputParserWithRetries.parse (some fixerBoom) (("```x```".toList)) =
      .error ⟨mkErrMsg (("```x```".toList))⟩ :=
  ⟨c2_retry_propagation_amended.1 (("```x```".toList))
      ⟨mkErrMsg (("```x```".toList))⟩ rfl,
   c2_retry_propagation_amended.2 fixerBoom (("```x```".toList))
      ⟨(("boom".toList))⟩ rfl⟩

/-- C3 counterexample: in the strict variant, a block missing the action
key raises, but the text attached to the error is not the original input
verbatim — it is the uniform message embedding the input after a fixed
prefix. -/
theorem c3_counterexample :
    ConvoOutputParser.parse (("```\x7b\"foo\": 1\x7d```".toList)) =
      .error ⟨mkErrMsg (("```\x7b\"foo\": 1\x7d```".toList))⟩ ∧
    mkErrMsg (("```\x7b\"foo\": 1\x7d```".toList)) ≠
      (("```\x7b\"foo\": 1\x7d```".toList)) :=
  ⟨rfl, by decide⟩

/-- C3 amended: in the strict variant (ConvoOutputParser), every input
whose parsed structured block is missing the action key fails with a
RecoverableParseError, and the text attached to that error is the fixed
prefix "Could not parse LLM output: " followed by the original input
verbatim. -/
theorem c3_strict_missing_action_amended :
    ∀ (text : List Char) (fields : List (List Char × JValue)),
      parseJsonMarkdown text = some (.obj fields) →
      jlookup fields actionKey = none →
      ConvoOutputParser.parse text = .error ⟨mkErrMsg text⟩ ∧
      mkErrMsg text = (("Could not parse LLM output: ".toList)) ++ text := by
  intro text fields hpm ha
  refine ⟨?_, rfl⟩
  unfold ConvoOutputParser.parse
  rw [hpm]
  dsimp only
  rw [ha]

theorem c3_strict_missing_action_amended_witness :
    ConvoOutputParser.parse (("```\x7b\"tool\": \"Search\"\x7d```".toList)) =
      .error ⟨mkErrMsg (("```\x7b\"tool\": \"Search\"\x7d```".toList))⟩ ∧
    mkErrMsg (("```\x7b\"tool\": \"Search\"\x7d```".toList)) =
      (("Could not parse LLM output: ".toList)) ++
        (("```\x7b\"tool\": \"Search\"\x7d```".toList)) :=
  c3_strict_missing_action_amended (("```\x7b\"tool\": \"Search\"\x7d```".toList))
    [((("tool".toList)), .str (("Search".toList)))] rfl rfl
